import Mathlib

/-!
Shallow embedding of the retail sales dashboard's computation pipeline
(`retail_dashb.py`): preprocessing-derived fields, KPI calculation, the
filter expression, the pandas groupby/reindex aggregations, the
`nlargest`/`nsmallest` selections, the `pd.cut` age bucketing and the
auto-insight generator.

Modelling conventions:
* pandas rows become the `Transaction` structure; money amounts are `ℚ`,
  calendar dates are `ℤ` (days since 1970-01-01, a Thursday).
* Float division is modelled by `fdiv`, which returns `none` when the
  denominator is `0`.  `none` stands for the non-finite float (NaN/inf)
  that pandas produces there; a pandas comparison `NaN < c` is `False`,
  which is mirrored by `oLt`/`oGt` on `Option ℚ`.  `Series.mean` skips
  missing values, mirrored by `List.filterMap` before averaging.
* `groupby(k)[v].sum()` becomes an association list over the distinct
  keys in ascending order (pandas sorts group keys); `.reindex(names)`
  becomes a map over `names` looking each key up, `none` for a key the
  grouped table lacks (pandas: NaN).  Grouping by the categorical
  `age_group` column keeps every declared category with sum `0`, which
  is modelled directly in `age_sales`.
* `nlargest`/`nsmallest` are pandas' stable selections: a stable sort by
  the key (descending resp. ascending) followed by `take n`; they are
  modelled with `List.insertionSort`, which inserts an earlier row in
  front of later rows with an equal key, hence is stable.
-/

namespace RetailSale

/-- One row of the `RETAIL_SALES` table after preprocessing parsed the
`sale_date` column.  `sale_date` is the calendar date as a day number. -/
structure Transaction where
  transaction_id : ℕ
  sale_date : ℤ
  customer_id : ℕ
  gender : String
  age : ℤ
  category : String
  total_sale : ℚ
  cogs : ℚ
deriving DecidableEq, Repr

/-- The sidebar filter state: date range (inclusive), selected categories
and selected genders. -/
structure FilterCriteria where
  date_from : ℤ
  date_to : ℤ
  categories : List String
  genders : List String
deriving DecidableEq, Repr

/-- Float division, `none` for the non-finite result of dividing by 0. -/
def fdiv (a b : ℚ) : Option ℚ := if b = 0 then none else some (a / b)

/-- Models `df['profit'] = df['total_sale'] - df['cogs']`. -/
def profit (r : Transaction) : ℚ := r.total_sale - r.cogs

/-- Models `df['profit_margin'] = (df['profit'] / df['total_sale']) * 100`;
`none` models the non-finite float produced when `total_sale = 0`. -/
def profit_margin (r : Transaction) : Option ℚ :=
  (fdiv (profit r) r.total_sale).map (· * 100)

/-- The finite value of a row's profit margin (meaningful when
`total_sale ≠ 0`). -/
def marginVal (r : Transaction) : ℚ := (profit r / r.total_sale) * 100

/-- Weekday names in the fixed order used by the dashboard's reindex. -/
def weekNames : List String :=
  ["Monday", "Tuesday", "Wednesday", "Thursday", "Friday", "Saturday", "Sunday"]

/-- Models `df['week_day'] = df['sale_date'].dt.day_name()`.  Day 0
(1970-01-01) was a Thursday, index 3 in the Monday-first list. -/
def week_day (r : Transaction) : String :=
  weekNames.getD ((r.sale_date + 3) % 7).toNat ""

/-- Models `df['total_sale'].sum()`. -/
def totalRevenue (D : List Transaction) : ℚ := (D.map Transaction.total_sale).sum

/-- Models `df['profit'].sum()`. -/
def totalProfit (D : List Transaction) : ℚ := (D.map profit).sum

/-- Models `df['customer_id'].nunique()`. -/
def uniqueCustomers (D : List Transaction) : ℕ :=
  (D.map Transaction.customer_id).dedup.length

/-- Models `df['sale_date'].min()` (0 on an empty frame, never used there). -/
def minDate (D : List Transaction) : ℤ :=
  match D with
  | [] => 0
  | r :: rs => rs.foldl (fun m t => min m t.sale_date) r.sale_date

/-- Models `df['sale_date'].max()` (0 on an empty frame, never used there). -/
def maxDate (D : List Transaction) : ℤ :=
  match D with
  | [] => 0
  | r :: rs => rs.foldl (fun m t => max m t.sale_date) r.sale_date

/-- The KPI dictionary built by `calculate_kpis`.  Ratio fields are
`Option ℚ` because the source divides without a guard there. -/
structure Kpis where
  total_revenue : ℚ
  total_transactions : ℕ
  avg_transaction : Option ℚ
  total_profit : ℚ
  profit_margin : Option ℚ
  unique_customers : ℕ
  avg_revenue_per_customer : Option ℚ
  date_range_days : ℤ
deriving DecidableEq, Repr

/-- Models `calculate_kpis(df)`: returns `None` when the frame is `None` or
empty, otherwise the KPI dictionary.  `profit_margin` is the unguarded
`(df['profit'].sum() / df['total_sale'].sum()) * 100`. -/
def calculate_kpis (D : List Transaction) : Option Kpis :=
  if D.isEmpty then none
  else some
    { total_revenue := totalRevenue D
      total_transactions := D.length
      avg_transaction := fdiv (totalRevenue D) D.length
      total_profit := totalProfit D
      profit_margin := (fdiv (totalProfit D) (totalRevenue D)).map (· * 100)
      unique_customers := uniqueCustomers D
      avg_revenue_per_customer := fdiv (totalRevenue D) (uniqueCustomers D)
      date_range_days := maxDate D - minDate D + 1 }

/-- The executive-snapshot block's
`(total_profit / total_revenue) * 100 if total_revenue != 0 else 0`. -/
def gross_profit_margin (D : List Transaction) : ℚ :=
  if totalRevenue D ≠ 0 then (totalProfit D / totalRevenue D) * 100 else 0

/-- The executive-snapshot block's
`total_revenue / unique_customers if unique_customers > 0 else 0`. -/
def avg_revenue_per_customer (D : List Transaction) : ℚ :=
  if uniqueCustomers D > 0 then totalRevenue D / uniqueCustomers D else 0

/-- The boolean mask of the sidebar-filter expression: date in the
inclusive range, category and gender among the selected ones. -/
def matchesCriteria (c : FilterCriteria) (r : Transaction) : Bool :=
  decide (c.date_from ≤ r.sale_date) && decide (r.sale_date ≤ c.date_to) &&
    c.categories.contains r.category && c.genders.contains r.gender

/-- Models `filtered_data = retail_data[mask]`: row selection by the boolean
mask, order preserving, input untouched. -/
def filtered_data (D : List Transaction) (c : FilterCriteria) : List Transaction :=
  D.filter (matchesCriteria c)

/-- The sidebar's default selections: the full date span of the loaded
data, every category and every gender occurring in it. -/
def fullCriteria (D : List Transaction) : FilterCriteria :=
  { date_from := minDate D
    date_to := maxDate D
    categories := (D.map Transaction.category).dedup
    genders := (D.map Transaction.gender).dedup }

/-- Models `df[df key == k]['total_sale'].sum()`: the grouped sum for one key. -/
def sumSaleBy {K : Type} [DecidableEq K] (key : Transaction → K)
    (D : List Transaction) (k : K) : ℚ :=
  ((D.filter (fun r => decide (key r = k))).map Transaction.total_sale).sum

/-- The distinct keys of a groupby, in ascending order (pandas sorts
group keys by default). -/
def groupKeys (key : Transaction → String) (D : List Transaction) : List String :=
  List.insertionSort (· ≤ ·) (D.map key).dedup

/-- Models `df.groupby(key)['total_sale'].sum()` as an association list over
the sorted distinct keys. -/
def groupbySum (key : Transaction → String) (D : List Transaction) :
    List (String × ℚ) :=
  (groupKeys key D).map (fun k => (k, sumSaleBy key D k))

/-- Descending order on grouped values, used by `sort_values(ascending=False)`. -/
def valDesc (p q : String × ℚ) : Prop := q.2 ≤ p.2

instance : DecidableRel valDesc := fun p q => inferInstanceAs (Decidable (q.2 ≤ p.2))

/-- Models the category table
`groupby('category')['total_sale'].sum().sort_values(ascending=False)`. -/
def category_sales (D : List Transaction) : List (String × ℚ) :=
  List.insertionSort valDesc (groupbySum (fun r => r.category) D)

/-- Models `.reindex(names)` on a grouped series: one entry per requested name,
value `none` (pandas NaN) when the grouped table has no such key. -/
def reindexOpt (names : List String) (g : List (String × ℚ)) :
    List (String × Option ℚ) :=
  names.map (fun d => (d, g.lookup d))

/-- Models the weekday table
`groupby('week_day')['total_sale'].sum().reindex([Monday..Sunday])`. -/
def weekday_sales (D : List Transaction) : List (String × Option ℚ) :=
  reindexOpt weekNames (groupbySum week_day D)

/-- The `pd.cut` labels `age_labels = ['18-25','26-35','36-45','46-55','55+']`. -/
def age_labels : List String := ["18-25", "26-35", "36-45", "46-55", "55+"]

/-- Models `pd.cut(age, bins=[0,25,35,45,55,100], labels=age_labels)`: pandas
bins are right-closed, `(0,25], (25,35], (35,45], (45,55], (55,100]`;
a value outside `(0,100]` gets no bucket (NaN). -/
def ageBucket (a : ℤ) : Option String :=
  if a ≤ 0 then none
  else if a ≤ 25 then some "18-25"
  else if a ≤ 35 then some "26-35"
  else if a ≤ 45 then some "36-45"
  else if a ≤ 55 then some "46-55"
  else if a ≤ 100 then some "55+"
  else none

/-- Models `groupby('age_group')['total_sale'].sum().reindex(age_labels)`:
grouping on the categorical column keeps every declared label, with sum
`0` for an unobserved one; rows whose bucket is NaN are dropped from
every group. -/
def age_sales (D : List Transaction) : List (String × ℚ) :=
  age_labels.map (fun l => (l, sumSaleBy (fun r => ageBucket r.age) D (some l)))

/-- Sum of the `age_sales` column values. -/
def ageGroupTotal (D : List Transaction) : ℚ := ((age_sales D).map Prod.snd).sum

/-- Revenue of the rows `pd.cut` left without a bucket. -/
def excludedAgeTotal (D : List Transaction) : ℚ :=
  sumSaleBy (fun r => ageBucket r.age) D none

/-- Descending-profit order: the key order behind `nlargest(_, 'profit')`. -/
def profDesc (a b : Transaction) : Prop := profit b ≤ profit a

/-- Ascending-profit order: the key order behind `nsmallest(_, 'profit')`. -/
def profAsc (a b : Transaction) : Prop := profit a ≤ profit b

instance : DecidableRel profDesc := fun a b => inferInstanceAs (Decidable (profit b ≤ profit a))

instance : DecidableRel profAsc := fun a b => inferInstanceAs (Decidable (profit a ≤ profit b))

instance : IsTotal Transaction profDesc := ⟨fun a b => le_total (profit b) (profit a)⟩

instance : IsTotal Transaction profAsc := ⟨fun a b => le_total (profit a) (profit b)⟩

instance : IsTrans Transaction profDesc := ⟨fun _ _ _ hab hbc => le_trans hbc hab⟩

instance : IsTrans Transaction profAsc := ⟨fun _ _ _ hab hbc => le_trans hab hbc⟩

/-- Models `filtered_data.nlargest(5, 'profit')`: stable descending sort by
profit, first five rows. -/
def top_trans (D : List Transaction) : List Transaction :=
  (List.insertionSort profDesc D).take 5

/-- Models `filtered_data.nsmallest(5, 'profit')`: stable ascending sort by
profit, first five rows. -/
def bottom_trans (D : List Transaction) : List Transaction :=
  (List.insertionSort profAsc D).take 5

/-- Models `series.idxmax()` together with the maximal value: the first pair
attaining the maximum value (strict comparison keeps the first). -/
def idxmax : List (String × ℚ) → Option (String × ℚ)
  | [] => none
  | p :: ps => some (ps.foldl (fun best q => if best.2 < q.2 then q else best) p)

/-- Models `df['profit_margin'].mean()`: pandas skips missing (NaN) values, so
the mean ranges over the rows whose margin is defined; all-missing gives
NaN (`none`). -/
def meanRowMargin (D : List Transaction) : Option ℚ :=
  fdiv (D.filterMap profit_margin).sum (D.filterMap profit_margin).length

/-- Models `x < c` on a possibly non-finite float: `False` when `x` is NaN. -/
def oLt (a : Option ℚ) (c : ℚ) : Bool :=
  match a with
  | some m => decide (m < c)
  | none => false

/-- Models `x > c` on a possibly non-finite float: `False` when `x` is NaN. -/
def oGt (a : Option ℚ) (c : ℚ) : Bool :=
  match a with
  | some m => decide (c < m)
  | none => false

/-- The content of the strings `generate_auto_insights` emits (the
number formatting is presentation and not modelled). -/
inductive Insight where
  | noDataLine : Insight
  | revenueLine (total : ℚ) : Insight
  | topCategoryLine (cat : String) (sales : ℚ) : Insight
  | bestDayLine (day : String) : Insight
  | avgMarginLine (m : Option ℚ) : Insight
  | lowMarginWarning : Insight
  | highMarginPraise : Insight
deriving DecidableEq, Repr

/-- Models `generate_auto_insights(df)`: the fixed four lines, then the
conditional margin line.  On a non-empty frame `idxmax` never hits the
`getD` default, because the grouped table is non-empty. -/
def generate_auto_insights (D : List Transaction) : List Insight :=
  if D.isEmpty then [Insight.noDataLine]
  else
    let top_cat := (idxmax (groupbySum (fun r => r.category) D)).getD ("", 0)
    let best_day := (idxmax (groupbySum week_day D)).getD ("", 0)
    let avg_margin := meanRowMargin D
    [Insight.revenueLine (totalRevenue D),
     Insight.topCategoryLine top_cat.1 top_cat.2,
     Insight.bestDayLine best_day.1,
     Insight.avgMarginLine avg_margin] ++
    (if oLt avg_margin 20 then [Insight.lowMarginWarning]
     else if oGt avg_margin 40 then [Insight.highMarginPraise]
     else [])

/-- One raw row as fetched from the database, before
`pd.to_datetime`: `none` in a field models a value the preprocessing
step cannot parse (or a missing column entry). -/
structure RawRow where
  transaction_id : ℕ
  sale_date : Option ℤ
  customer_id : ℕ
  gender : String
  age : ℤ
  category : String
  total_sale : Option ℚ
  cogs : Option ℚ
deriving DecidableEq, Repr

/-- Preprocessing of one row: fails (an exception inside the `try`
block) when the date is unparseable or a needed value is missing. -/
def preprocessRow (r : RawRow) : Except String Transaction :=
  match r.sale_date, r.total_sale, r.cogs with
  | some d, some s, some c =>
      .ok ⟨r.transaction_id, d, r.customer_id, r.gender, r.age, r.category, s, c⟩
  | _, _, _ => .error "invalid record"

/-- Preprocessing of the fetched frame: any bad row aborts the whole
`try` block. -/
def preprocessAll : List RawRow → Except String (List Transaction)
  | [] => .ok []
  | r :: rs =>
      match preprocessRow r, preprocessAll rs with
      | .ok t, .ok ts => .ok (t :: ts)
      | .error e, _ => .error e
      | _, .error e => .error e

/-- Models `load_retail_data()`: the whole fetch-and-preprocess runs inside
`try ... except: return None`, so a failed fetch and a failed
preprocessing both surface as `None`. -/
def load_retail_data (fetch : Except String (List RawRow)) :
    Option (List Transaction) :=
  match fetch with
  | .error _ => none
  | .ok rows => (preprocessAll rows).toOption

/-- The script's top level: `if retail_data is None: st.stop()` — every
downstream computation happens only on a loaded frame. -/
def runDashboard (fetch : Except String (List RawRow)) (c : FilterCriteria) :
    Option (Option Kpis × List Insight) :=
  match load_retail_data fetch with
  | none => none
  | some D =>
      let fd := filtered_data D c
      some (calculate_kpis fd, generate_auto_insights fd)

/-! ### Helper lemmas -/

lemma foldl_min_le_init (l : List Transaction) (a : ℤ) :
    l.foldl (fun m t => min m t.sale_date) a ≤ a := by
  induction l generalizing a with
  | nil => exact le_refl a
  | cons t ts ih => exact le_trans (ih (min a t.sale_date)) (min_le_left _ _)

lemma foldl_min_le_mem (l : List Transaction) :
    ∀ (a : ℤ) (r : Transaction), r ∈ l →
      l.foldl (fun m t => min m t.sale_date) a ≤ r.sale_date := by
  induction l with
  | nil => intro a r hr; cases hr
  | cons t ts ih =>
      intro a r hr
      rcases List.mem_cons.mp hr with h | h
      · subst h
        exact le_trans (foldl_min_le_init ts (min a r.sale_date)) (min_le_right _ _)
      · exact ih (min a t.sale_date) r h

lemma foldl_max_ge_init (l : List Transaction) (a : ℤ) :
    a ≤ l.foldl (fun m t => max m t.sale_date) a := by
  induction l generalizing a with
  | nil => exact le_refl a
  | cons t ts ih => exact le_trans (le_max_left _ _) (ih (max a t.sale_date))

lemma foldl_max_ge_mem (l : List Transaction) :
    ∀ (a : ℤ) (r : Transaction), r ∈ l →
      r.sale_date ≤ l.foldl (fun m t => max m t.sale_date) a := by
  induction l with
  | nil => intro a r hr; cases hr
  | cons t ts ih =>
      intro a r hr
      rcases List.mem_cons.mp hr with h | h
      · subst h
        exact le_trans (le_max_right _ _) (foldl_max_ge_init ts (max a r.sale_date))
      · exact ih (max a t.sale_date) r h

lemma minDate_le_mem (D : List Transaction) (r : Transaction) (hr : r ∈ D) :
    minDate D ≤ r.sale_date := by
  cases D with
  | nil => cases hr
  | cons t ts =>
      simp only [minDate]
      rcases List.mem_cons.mp hr with h | h
      · subst h; exact foldl_min_le_init ts r.sale_date
      · exact foldl_min_le_mem ts t.sale_date r h

lemma le_maxDate_mem (D : List Transaction) (r : Transaction) (hr : r ∈ D) :
    r.sale_date ≤ maxDate D := by
  cases D with
  | nil => cases hr
  | cons t ts =>
      simp only [maxDate]
      rcases List.mem_cons.mp hr with h | h
      · subst h; exact foldl_max_ge_init ts r.sale_date
      · exact foldl_max_ge_mem ts t.sale_date r h

lemma sum_map_filter_split (p : Transaction → Bool) (D : List Transaction) :
    ((D.filter p).map Transaction.total_sale).sum +
      ((D.filter (fun r => !p r)).map Transaction.total_sale).sum =
      (D.map Transaction.total_sale).sum := by
  induction D with
  | nil => simp
  | cons r rs ih =>
      by_cases h : p r = true
      · simp [List.filter_cons, h, add_assoc, ih]
      · simp only [Bool.not_eq_true] at h
        simp [List.filter_cons, h]
        rw [← ih]
        ring

lemma sum_sumSaleBy {K : Type} [DecidableEq K] (key : Transaction → K) :
    ∀ (keys : List K) (D : List Transaction), keys.Nodup →
      (∀ r ∈ D, key r ∈ keys) →
      (keys.map (sumSaleBy key D)).sum = totalRevenue D := by
  intro keys
  induction keys with
  | nil =>
      intro D _ hall
      have : D = [] := by
        cases D with
        | nil => rfl
        | cons r rs => exact absurd (hall r (List.mem_cons_self r rs)) (by simp)
      subst this; simp [totalRevenue]
  | cons k ks ih =>
      intro D hnd hall
      have hnd' : ks.Nodup := (List.nodup_cons.mp hnd).2
      have hk : k ∉ ks := (List.nodup_cons.mp hnd).1
      set D' := D.filter (fun r => !decide (key r = k)) with hD'
      have hall' : ∀ r ∈ D', key r ∈ ks := by
        intro r hr
        have hmem := List.mem_of_mem_filter hr
        have hne : ¬(key r = k) := by
          have := List.of_mem_filter hr
          simpa using this
        rcases List.mem_cons.mp (hall r hmem) with h | h
        · exact absurd h hne
        · exact h
      have hcong : ∀ k' ∈ ks, sumSaleBy key D k' = sumSaleBy key D' k' := by
        intro k' hk'
        have hne : k' ≠ k := fun h => hk (h ▸ hk')
        have hfe : D.filter (fun a => decide (key a = k') && !decide (key a = k)) =
            D.filter (fun a => decide (key a = k')) := by
          apply List.filter_congr
          intro r _
          by_cases h : key r = k'
          · have h2 : key r ≠ k := by rw [h]; exact hne
            simp [h, h2, hne]
          · simp [h]
        unfold sumSaleBy
        rw [hD', List.filter_filter, hfe]
      calc (List.map (sumSaleBy key D) (k :: ks)).sum
          = sumSaleBy key D k + (ks.map (sumSaleBy key D)).sum := by simp
        _ = sumSaleBy key D k + (ks.map (sumSaleBy key D')).sum := by
            congr 1
            exact congrArg List.sum (List.map_congr_left hcong)
        _ = sumSaleBy key D k + totalRevenue D' := by rw [ih D' hnd' hall']
        _ = totalRevenue D := by
            unfold sumSaleBy totalRevenue at *
            rw [hD']
            exact sum_map_filter_split (fun r => decide (key r = k)) D

lemma lookup_keyMap (f : String → ℚ) (keys : List String) (k : String) :
    (keys.map (fun x => (x, f x))).lookup k =
      if k ∈ keys then some (f k) else none := by
  induction keys with
  | nil => simp [List.lookup]
  | cons x xs ih =>
      by_cases h : k = x
      · subst h; simp [List.lookup]
      · have hbeq : (k == x) = false := beq_false_of_ne h
        simp [List.lookup, hbeq, ih, List.mem_cons, h]

lemma mem_groupKeys (key : Transaction → String) (D : List Transaction)
    (k : String) : k ∈ groupKeys key D ↔ ∃ r ∈ D, key r = k := by
  unfold groupKeys
  rw [List.mem_insertionSort, List.mem_dedup, List.mem_map]

lemma nodup_groupKeys (key : Transaction → String) (D : List Transaction) :
    (groupKeys key D).Nodup :=
  (List.perm_insertionSort (· ≤ ·) (D.map key).dedup).nodup_iff.mpr
    (List.nodup_dedup _)

lemma filterMap_margin_eq_map (D : List Transaction)
    (h : ∀ r ∈ D, r.total_sale ≠ 0) :
    D.filterMap profit_margin = D.map marginVal := by
  induction D with
  | nil => rfl
  | cons r rs ih =>
      have hr : r.total_sale ≠ 0 := h r (List.mem_cons_self r rs)
      have hmargin : profit_margin r = some (marginVal r) := by
        simp [profit_margin, fdiv, hr, marginVal]
      rw [List.filterMap_cons, hmargin, List.map_cons,
        ih (fun t ht => h t (List.mem_cons_of_mem r ht))]

lemma filter_key_insertionSort (rel : Transaction → Transaction → Prop)
    [DecidableRel rel] (hrel : ∀ x y, profit x = profit y → rel x y)
    (D : List Transaction) (p : ℚ) :
    (List.insertionSort rel D).filter (fun t => decide (profit t = p)) =
      D.filter (fun t => decide (profit t = p)) := by
  set q : Transaction → Bool := fun t => decide (profit t = p) with hq
  have hperm : List.Perm ((List.insertionSort rel D).filter q) (D.filter q) :=
    (List.perm_insertionSort rel D).filter q
  have hpw : (D.filter q).Pairwise rel := by
    apply List.pairwise_of_forall_mem_list
    intro x hx y hy
    have hxp : profit x = p := by simpa [hq] using List.of_mem_filter hx
    have hyp : profit y = p := by simpa [hq] using List.of_mem_filter hy
    exact hrel x y (hxp.trans hyp.symm)
  have hsub : List.Sublist (D.filter q) (List.insertionSort rel D) :=
    List.sublist_insertionSort hpw (List.filter_sublist D)
  have hsub2 : List.Sublist ((D.filter q).filter q)
      ((List.insertionSort rel D).filter q) :=
    hsub.filter q
  have hidem : (D.filter q).filter q = D.filter q :=
    List.filter_eq_self.mpr (fun a ha => List.of_mem_filter ha)
  rw [hidem] at hsub2
  exact (hsub2.eq_of_length hperm.length_eq.symm).symm

lemma preprocessRow_error_of_bad (r : RawRow)
    (h : r.sale_date = none ∨ r.total_sale = none ∨ r.cogs = none) :
    preprocessRow r = .error "invalid record" := by
  rcases r with ⟨id, sd, cid, g, a, cat, ts, cg⟩
  cases sd <;> cases ts <;> cases cg <;> simp_all [preprocessRow]

lemma preprocessAll_toOption_none (rows : List RawRow)
    (h : ∃ r ∈ rows, r.sale_date = none ∨ r.total_sale = none ∨ r.cogs = none) :
    (preprocessAll rows).toOption = none := by
  induction rows with
  | nil => rcases h with ⟨r, hr, _⟩; cases hr
  | cons r rs ih =>
      rcases h with ⟨r', hmem, hbad⟩
      rcases List.mem_cons.mp hmem with heq | hmem'
      · subst heq
        have herr := preprocessRow_error_of_bad r' hbad
        cases hrest : preprocessAll rs <;>
          simp [preprocessAll, herr, hrest, Except.toOption]
      · have hrec := ih ⟨r', hmem', hbad⟩
        cases hrest : preprocessAll rs with
        | error e =>
            cases hhead : preprocessRow r <;>
              simp [preprocessAll, hhead, hrest, Except.toOption]
        | ok ts => rw [hrest] at hrec; simp [Except.toOption] at hrec

/-! ### Concrete example data (the two-row example of the spec, a
zero-sale row, an out-of-range age and a malformed raw row) -/

def exRowA : Transaction := ⟨1, 0, 10, "Male", 30, "Beauty", 100, 60⟩

def exRowB : Transaction := ⟨2, 3, 11, "Female", 40, "Clothing", 200, 50⟩

def exD2 : List Transaction := [exRowA, exRowB]

def exZeroSale : Transaction := ⟨3, 0, 12, "Male", 30, "Beauty", 0, 0⟩

def exAgeOut : List Transaction := [⟨4, 0, 13, "Male", 101, "Beauty", 50, 10⟩]

def exBadRow : RawRow := ⟨5, none, 14, "Male", 30, "Beauty", some 10, some 5⟩

def exKpis2 : Kpis := ⟨300, 2, some 150, 190, some (190 / 3), 2, some 150, 4⟩

/-! ### Claim theorems -/

/-- Claim C1, counterexample: on the empty dataset `calculate_kpis`
returns `None` — there is no `KpiSet` at all, so in particular not one
with `total_revenue = 0` and `unique_customers = 0`. -/
theorem calculate_kpis_empty_none_cex :
    calculate_kpis ([] : List Transaction) = none := rfl

/-- Claim C1, amended: `calculate_kpis` never raises; it returns the
sentinel `None` exactly on the empty dataset (and the caller branches on
that before display). -/
theorem calculate_kpis_none_iff_empty :
    ∀ D : List Transaction, calculate_kpis D = none ↔ D = [] := by
  intro D
  cases D with
  | nil => simp [calculate_kpis]
  | cons r rs => simp [calculate_kpis]

/-- Claim C3: the filter keeps exactly the records whose date lies in
the inclusive range and whose category and gender are selected; it is a
sublist of the input (order kept, input unchanged), and with the
full-range, all-categories, all-genders criteria it is the identity. -/
theorem filtered_data_spec :
    ∀ (D : List Transaction) (c : FilterCriteria) (r : Transaction),
      List.Sublist (filtered_data D c) D ∧
      (r ∈ filtered_data D c ↔ r ∈ D ∧ c.date_from ≤ r.sale_date ∧
        r.sale_date ≤ c.date_to ∧ r.category ∈ c.categories ∧
        r.gender ∈ c.genders) ∧
      filtered_data D (fullCriteria D) = D := by
  intro D c r
  refine ⟨List.filter_sublist D, ?_, ?_⟩
  · rw [filtered_data, List.mem_filter]
    simp [matchesCriteria, and_assoc]
  · apply List.filter_eq_self.mpr
    intro t ht
    simp only [matchesCriteria, fullCriteria, Bool.and_eq_true, decide_eq_true_eq]
    refine ⟨⟨⟨minDate_le_mem D t ht, le_maxDate_mem D t ht⟩, ?_⟩, ?_⟩
    · exact List.elem_eq_true_of_mem
        (List.mem_dedup.mpr (List.mem_map_of_mem Transaction.category ht))
    · exact List.elem_eq_true_of_mem
        (List.mem_dedup.mpr (List.mem_map_of_mem Transaction.gender ht))

/-- Claim C4, counterexample: on a one-row dataset with
`total_sale = 0` the denominator `total_revenue` is `0`, yet
`calculate_kpis` computes `profit_margin` without any guard, producing
the non-finite marker `none` rather than `0`. -/
theorem calculate_kpis_margin_unguarded_cex :
    totalRevenue [exZeroSale] = 0 ∧
      (calculate_kpis [exZeroSale]).map Kpis.profit_margin = some none ∧
      some (none : Option ℚ) ≠ some (some (0 : ℚ)) := by
  refine ⟨?_, ?_, by simp⟩
  · simp [totalRevenue, exZeroSale]
  · have h : totalRevenue [exZeroSale] = 0 := by simp [totalRevenue, exZeroSale]
    simp [calculate_kpis, h, fdiv]

/-- Claim C4, amended: the executive-snapshot block guards both ratios
(zero denominator gives `0`), but `calculate_kpis` leaves
`profit_margin` unguarded: on a non-empty dataset with zero total
revenue it yields a non-finite value (`none`), not `0`. -/
theorem div_zero_guard_policy :
    ∀ D : List Transaction,
      (totalRevenue D = 0 → gross_profit_margin D = 0) ∧
      (uniqueCustomers D = 0 → avg_revenue_per_customer D = 0) ∧
      (D ≠ [] → totalRevenue D = 0 →
        (calculate_kpis D).map Kpis.profit_margin = some none) := by
  intro D
  refine ⟨?_, ?_, ?_⟩
  · intro h; simp [gross_profit_margin, h]
  · intro h; simp [avg_revenue_per_customer, h]
  · intro hne h
    have hE : D.isEmpty = false := by
      cases D with
      | nil => exact absurd rfl hne
      | cons r rs => rfl
    simp [calculate_kpis, hE, h, fdiv]

/-- Witness for `div_zero_guard_policy` at concrete inputs. -/
theorem div_zero_guard_policy_witness :
    gross_profit_margin [exZeroSale] = 0 ∧
      avg_revenue_per_customer ([] : List Transaction) = 0 ∧
      (calculate_kpis [exZeroSale]).map Kpis.profit_margin = some none :=
  ⟨(div_zero_guard_policy [exZeroSale]).1 (by simp [totalRevenue, exZeroSale]),
   (div_zero_guard_policy []).2.1 (by simp [uniqueCustomers]),
   (div_zero_guard_policy [exZeroSale]).2.2 (by simp)
     (by simp [totalRevenue, exZeroSale])⟩

/-- Claim C5: the weekday aggregation always returns the seven weekday
keys Monday..Sunday in that fixed order, whatever the data; a weekday
with no records still appears, carrying the missing marker (pandas NaN)
instead of being dropped, and a weekday with records carries the summed
sales. -/
theorem weekday_sales_spec :
    ∀ (D : List Transaction) (d : String),
      (weekday_sales D).map Prod.fst = weekNames ∧
      (weekday_sales D).length = 7 ∧
      (d ∈ weekNames → (∀ r ∈ D, week_day r ≠ d) →
        (d, (none : Option ℚ)) ∈ weekday_sales D) ∧
      (d ∈ weekNames → (∃ r ∈ D, week_day r = d) →
        (d, some (sumSaleBy week_day D d)) ∈ weekday_sales D) := by
  intro D d
  have hlookup : ∀ k, (groupbySum week_day D).lookup k =
      if k ∈ groupKeys week_day D then some (sumSaleBy week_day D k) else none :=
    fun k => lookup_keyMap (sumSaleBy week_day D) (groupKeys week_day D) k
  refine ⟨?_, ?_, ?_, ?_⟩
  · rfl
  · simp [weekday_sales, reindexOpt, weekNames]
  · intro hd habs
    have hnot : d ∉ groupKeys week_day D := by
      rw [mem_groupKeys]
      rintro ⟨r, hr, hk⟩
      exact habs r hr hk
    have hv : (fun x => (x, (groupbySum week_day D).lookup x)) d =
        (d, (none : Option ℚ)) := by
      simp [hlookup d, hnot]
    unfold weekday_sales reindexOpt
    rw [← hv]
    exact List.mem_map_of_mem _ hd
  · intro hd hex
    have hin : d ∈ groupKeys week_day D := by
      rw [mem_groupKeys]
      exact hex
    have hv : (fun x => (x, (groupbySum week_day D).lookup x)) d =
        (d, some (sumSaleBy week_day D d)) := by
      simp [hlookup d, hin]
    unfold weekday_sales reindexOpt
    rw [← hv]
    exact List.mem_map_of_mem _ hd

/-- Witness for `weekday_sales_spec`: with the two-row dataset (sold on
a Thursday and a Sunday), Monday appears with the missing marker and
Thursday with its sum. -/
theorem weekday_sales_spec_witness :
    ("Monday", (none : Option ℚ)) ∈ weekday_sales exD2 ∧
      ("Thursday", some (sumSaleBy week_day exD2 "Thursday")) ∈ weekday_sales exD2 :=
  ⟨(weekday_sales_spec exD2 "Monday").2.2.1 (by decide) (by decide),
   (weekday_sales_spec exD2 "Thursday").2.2.2 (by decide)
     ⟨exRowA, by simp [exD2], by decide⟩⟩

/-- Claim C6: `nlargest(5,'profit')` is non-increasing in profit,
`nsmallest(5,'profit')` non-decreasing, both of length `min 5 |D|`, and
the underlying selections are stable: rows of equal profit keep their
original relative order. -/
theorem top_bottom_trans_spec :
    ∀ (D : List Transaction) (p : ℚ),
      (top_trans D).length = min 5 D.length ∧
      (bottom_trans D).length = min 5 D.length ∧
      (top_trans D).Pairwise profDesc ∧
      (bottom_trans D).Pairwise profAsc ∧
      (List.insertionSort profDesc D).filter (fun t => decide (profit t = p)) =
        D.filter (fun t => decide (profit t = p)) ∧
      (List.insertionSort profAsc D).filter (fun t => decide (profit t = p)) =
        D.filter (fun t => decide (profit t = p)) := by
  intro D p
  refine ⟨?_, ?_, ?_, ?_, ?_, ?_⟩
  · simp [top_trans, List.length_take, List.length_insertionSort]
  · simp [bottom_trans, List.length_take, List.length_insertionSort]
  · exact List.Pairwise.sublist (List.take_sublist 5 _)
      (List.sorted_insertionSort profDesc D)
  · exact List.Pairwise.sublist (List.take_sublist 5 _)
      (List.sorted_insertionSort profAsc D)
  · exact filter_key_insertionSort profDesc
      (fun x y h => le_of_eq h.symm) D p
  · exact filter_key_insertionSort profAsc
      (fun x y h => le_of_eq h) D p

/-- Evaluation of `calculate_kpis` on the two-row example gives the
expected KPI record. -/
lemma calculate_kpis_exD2 : calculate_kpis exD2 = some exKpis2 := by
  have hrev : totalRevenue exD2 = 300 := by
    simp [totalRevenue, exD2, exRowA, exRowB]
    norm_num
  have hprof : totalProfit exD2 = 190 := by
    simp [totalProfit, exD2, exRowA, exRowB, profit]
    norm_num
  have huniq : uniqueCustomers exD2 = 2 := by decide
  have hlen : exD2.length = 2 := by decide
  have hmin : minDate exD2 = 0 := by decide
  have hmax : maxDate exD2 = 3 := by decide
  unfold calculate_kpis
  rw [if_neg (by decide : ¬(exD2.isEmpty = true))]
  congr 1
  unfold exKpis2
  simp only [Kpis.mk.injEq, hrev, hprof, huniq, hlen, hmin, hmax]
  norm_num [fdiv]

/-- Claim C7: the per-category sums reconcile with the global KPI: their
total equals `total_revenue` (and equals `totalRevenue` on every
dataset, including the empty one where both are zero). -/
theorem category_sales_reconcile :
    ∀ D : List Transaction,
      ((category_sales D).map Prod.snd).sum = totalRevenue D ∧
      (∀ k, calculate_kpis D = some k →
        ((category_sales D).map Prod.snd).sum = k.total_revenue) := by
  intro D
  have hmain : ((category_sales D).map Prod.snd).sum = totalRevenue D := by
    have hperm : List.Perm (category_sales D) (groupbySum (fun r => r.category) D) :=
      List.perm_insertionSort valDesc _
    rw [(hperm.map Prod.snd).sum_eq]
    have hmaps : (groupbySum (fun r => r.category) D).map Prod.snd =
        (groupKeys (fun r => r.category) D).map
          (sumSaleBy (fun r => r.category) D) := by
      simp [groupbySum, List.map_map, Function.comp]
    rw [hmaps]
    apply sum_sumSaleBy
    · exact nodup_groupKeys _ D
    · intro r hr
      exact (mem_groupKeys _ D _).mpr ⟨r, hr, rfl⟩
  refine ⟨hmain, ?_⟩
  intro k hk
  cases D with
  | nil => simp [calculate_kpis] at hk
  | cons r rs =>
      rw [hmain]
      simp only [calculate_kpis, List.isEmpty_cons, Bool.false_eq_true,
        if_false, Option.some.injEq] at hk
      rw [← hk]

/-- Witness for `category_sales_reconcile` on the two-row example. -/
theorem category_sales_reconcile_witness :
    ((category_sales exD2).map Prod.snd).sum = exKpis2.total_revenue :=
  (category_sales_reconcile exD2).2 exKpis2 calculate_kpis_exD2

/-- Claim C2: on the empty dataset the insight list is exactly the
single no-data line; on a non-empty dataset (with every row's margin
defined) the fourth line reports the arithmetic mean of the per-row
margins, and a fifth line exists iff that mean is `< 20` or `> 40`; the
reported mean differs from the aggregate `profit_margin` KPI on the
spec's own two-row example. -/
theorem generate_auto_insights_spec :
    generate_auto_insights ([] : List Transaction) = [Insight.noDataLine] ∧
    (∀ D : List Transaction, D ≠ [] → (∀ r ∈ D, r.total_sale ≠ 0) →
      meanRowMargin D = some ((D.map marginVal).sum / D.length) ∧
      (generate_auto_insights D)[3]? =
        some (Insight.avgMarginLine (some ((D.map marginVal).sum / D.length))) ∧
      ((generate_auto_insights D).length = 5 ↔
        ((D.map marginVal).sum / D.length < 20 ∨
          40 < (D.map marginVal).sum / D.length)) ∧
      ((generate_auto_insights D).length = 4 ↔
        ¬((D.map marginVal).sum / D.length < 20 ∨
          40 < (D.map marginVal).sum / D.length))) ∧
    meanRowMargin exD2 ≠ (calculate_kpis exD2).bind Kpis.profit_margin := by
  refine ⟨rfl, ?_, ?_⟩
  · intro D hne hns
    have hE : D.isEmpty = false := by
      cases D with
      | nil => exact absurd rfl hne
      | cons r rs => rfl
    have hlen0 : (D.length : ℚ) ≠ 0 :=
      Nat.cast_ne_zero.mpr (fun h => hne (List.length_eq_zero.mp h))
    have hmean : meanRowMargin D = some ((D.map marginVal).sum / D.length) := by
      unfold meanRowMargin
      rw [filterMap_margin_eq_map D hns]
      simp [fdiv, List.length_map, hlen0]
    have hgen : generate_auto_insights D =
        Insight.revenueLine (totalRevenue D) ::
        Insight.topCategoryLine
          ((idxmax (groupbySum (fun r => r.category) D)).getD ("", 0)).1
          ((idxmax (groupbySum (fun r => r.category) D)).getD ("", 0)).2 ::
        Insight.bestDayLine ((idxmax (groupbySum week_day D)).getD ("", 0)).1 ::
        Insight.avgMarginLine (meanRowMargin D) ::
        (if oLt (meanRowMargin D) 20 then [Insight.lowMarginWarning]
         else if oGt (meanRowMargin D) 40 then [Insight.highMarginPraise]
         else []) := by
      simp [generate_auto_insights, hE]
    refine ⟨hmean, ?_, ?_, ?_⟩
    · rw [hgen, hmean]
      simp
    · rw [hgen, hmean]
      by_cases h1 : (D.map marginVal).sum / D.length < 20
      · simp [oLt, h1]
      · by_cases h2 : 40 < (D.map marginVal).sum / D.length
        · simp [oLt, oGt, h1, h2]
        · simp [oLt, oGt, h1, h2]
    · rw [hgen, hmean]
      by_cases h1 : (D.map marginVal).sum / D.length < 20
      · simp [oLt, h1]
      · by_cases h2 : 40 < (D.map marginVal).sum / D.length
        · simp [oLt, oGt, h1, h2]
        · simp [oLt, oGt, h1, h2]
  · rw [calculate_kpis_exD2]
    have hm : meanRowMargin exD2 = some (115 / 2) := by
      have h1 : profit_margin exRowA = some 40 := by
        simp [profit_margin, fdiv, profit, exRowA]
        norm_num
      have h2 : profit_margin exRowB = some 75 := by
        simp [profit_margin, fdiv, profit, exRowB]
        norm_num
      simp [meanRowMargin, exD2, h1, h2, fdiv]
      norm_num
    rw [hm]
    simp [exKpis2]
    norm_num

/-- Witness for `generate_auto_insights_spec` on the two-row example
(mean margin `57.5`, hence five lines with the praise line last). -/
theorem generate_auto_insights_spec_witness :
    (generate_auto_insights exD2)[3]? =
      some (Insight.avgMarginLine (some ((exD2.map marginVal).sum / exD2.length))) ∧
      (generate_auto_insights exD2).length = 5 := by
  have hns : ∀ r ∈ exD2, r.total_sale ≠ 0 := by
    intro r hr
    simp only [exD2, List.mem_cons, List.not_mem_nil, or_false] at hr
    rcases hr with rfl | rfl
    · norm_num [exRowA]
    · norm_num [exRowB]
  have h := generate_auto_insights_spec.2.1 exD2 (by simp [exD2]) hns
  refine ⟨h.2.1, h.2.2.1.mpr (Or.inr ?_)⟩
  norm_num [exD2, exRowA, exRowB, marginVal, profit]

/-- Claim C8, counterexample: `pd.cut` with bin edges `[0,25,...]` is
left-open, so age `0` — a nonnegative age below 18 — falls into no
bucket at all, contradicting both the closed `[0,25]` reading and
"every nonnegative age falls into some bucket". -/
theorem ageBucket_zero_cex :
    ageBucket 0 = none ∧ ageBucket 0 ≠ some "18-25" := by decide

/-- Claim C8, amended: the bins are the right-closed intervals
`(0,25],(25,35],(35,45],(45,55],(55,100]`; every age in `[1,100]` gets a
bucket, ages `1..25` (hence every positive age below 18) get `"18-25"`,
ages `≤ 0` or `> 100` get none, and a label with no matching records
still appears in `age_sales` with value `0`. -/
theorem age_bucket_amended_spec :
    ∀ (a : ℤ) (D : List Transaction) (l : String),
      (1 ≤ a → a ≤ 100 → (ageBucket a).isSome = true) ∧
      (1 ≤ a → a ≤ 25 → ageBucket a = some "18-25") ∧
      (a ≤ 0 ∨ 100 < a → ageBucket a = none) ∧
      (l ∈ age_labels → (∀ r ∈ D, ageBucket r.age ≠ some l) →
        (l, (0 : ℚ)) ∈ age_sales D) := by
  intro a D l
  refine ⟨?_, ?_, ?_, ?_⟩
  · intro h1 h2
    unfold ageBucket
    split_ifs <;> first | rfl | (exfalso; omega)
  · intro h1 h2
    unfold ageBucket
    split_ifs <;> first | rfl | (exfalso; omega)
  · intro h
    unfold ageBucket
    rcases h with h | h <;> split_ifs <;> first | rfl | (exfalso; omega)
  · intro hl habs
    have hfil : D.filter (fun r => decide (ageBucket r.age = some l)) = [] := by
      rw [List.filter_eq_nil_iff]
      intro r hr
      simpa using habs r hr
    have hz : sumSaleBy (fun r => ageBucket r.age) D (some l) = 0 := by
      unfold sumSaleBy
      rw [hfil]
      rfl
    unfold age_sales
    rw [← hz]
    exact List.mem_map_of_mem _ hl

/-- Witness for `age_bucket_amended_spec` at concrete ages and with the
two-row dataset, where the `"55+"` bucket is unobserved. -/
theorem age_bucket_amended_spec_witness :
    (ageBucket 10).isSome = true ∧ ageBucket 10 = some "18-25" ∧
      ageBucket 101 = none ∧ ("55+", (0 : ℚ)) ∈ age_sales exD2 :=
  ⟨(age_bucket_amended_spec 10 [] "").1 (by decide) (by decide),
   (age_bucket_amended_spec 10 [] "").2.1 (by decide) (by decide),
   (age_bucket_amended_spec 101 [] "").2.2.1 (by decide),
   (age_bucket_amended_spec 0 exD2 "55+").2.2.2 (by decide) (by decide)⟩

/-- Claim C10: the age buckets are the right-closed intervals
`(0,25] .. (55,100]`, an age outside `(0,100]` gets no bucket; bucketed
and excluded revenue always add up to total revenue, and on a dataset
with an age-101 row the bucketed sum is strictly below total revenue. -/
theorem age_bucket_exclusion_spec :
    ∀ (a : ℤ) (D : List Transaction),
      (ageBucket a = some "18-25" ↔ 0 < a ∧ a ≤ 25) ∧
      (ageBucket a = some "26-35" ↔ 25 < a ∧ a ≤ 35) ∧
      (ageBucket a = some "36-45" ↔ 35 < a ∧ a ≤ 45) ∧
      (ageBucket a = some "46-55" ↔ 45 < a ∧ a ≤ 55) ∧
      (ageBucket a = some "55+" ↔ 55 < a ∧ a ≤ 100) ∧
      (ageBucket a = none ↔ a ≤ 0 ∨ 100 < a) ∧
      ageGroupTotal D + excludedAgeTotal D = totalRevenue D ∧
      ageGroupTotal exAgeOut < totalRevenue exAgeOut := by
  intro a D
  have hkeys : (((none :: age_labels.map some) :
      List (Option String)).map (sumSaleBy (fun r => ageBucket r.age) D)).sum =
      totalRevenue D := by
    apply sum_sumSaleBy
    · decide
    · intro r _
      generalize r.age = b
      unfold ageBucket
      split_ifs <;> decide
  have hrec : ageGroupTotal D + excludedAgeTotal D = totalRevenue D := by
    unfold ageGroupTotal excludedAgeTotal age_sales
    rw [← hkeys]
    simp only [List.map_cons, List.sum_cons, List.map_map]
    exact add_comm _ _
  refine ⟨?_, ?_, ?_, ?_, ?_, ?_, hrec, ?_⟩
  · unfold ageBucket
    split_ifs <;> simp_all
  · unfold ageBucket
    split_ifs <;> simp_all
    all_goals omega
  · unfold ageBucket
    split_ifs <;> simp_all
    all_goals omega
  · unfold ageBucket
    split_ifs <;> simp_all
    all_goals omega
  · unfold ageBucket
    split_ifs <;> simp_all
    all_goals omega
  · unfold ageBucket
    split_ifs <;> simp_all
    all_goals omega
  · have h0 : ageGroupTotal exAgeOut = 0 := by
      simp [ageGroupTotal, age_sales, age_labels, sumSaleBy, exAgeOut, ageBucket]
    have h1 : totalRevenue exAgeOut = 50 := by
      simp [totalRevenue, exAgeOut]
    rw [h0, h1]
    norm_num

/-- Claim C9: loading is total — a fetch error and a malformed row both
yield `None` (indistinguishable at the interface), and the dashboard's
downstream computation runs exactly when loading yielded a frame. -/
theorem load_retail_data_spec :
    ∀ (e : String) (rows : List RawRow) (fetch : Except String (List RawRow))
      (c : FilterCriteria),
      load_retail_data (Except.error e) = none ∧
      ((∃ r ∈ rows, r.sale_date = none ∨ r.total_sale = none ∨ r.cogs = none) →
        load_retail_data (Except.ok rows) = none) ∧
      (runDashboard fetch c = none ↔ load_retail_data fetch = none) := by
  intro e rows fetch c
  refine ⟨rfl, ?_, ?_⟩
  · intro h
    exact preprocessAll_toOption_none rows h
  · cases hl : load_retail_data fetch with
    | none => simp [runDashboard, hl]
    | some D => simp [runDashboard, hl]

/-- Witness for `load_retail_data_spec`: a frame containing one row with
an unparseable date loads as `None`. -/
theorem load_retail_data_spec_witness :
    load_retail_data (Except.ok [exBadRow]) = none :=
  (load_retail_data_spec "" [exBadRow] (Except.ok []) (fullCriteria [])).2.1
    ⟨exBadRow, by simp, Or.inl rfl⟩

end RetailSale
